import Mathlib

/-!
# Verification of the demeter metric server's discovery / query pipeline

Shallow embedding of the three source files of the repository:

* `src/server/src/services/MetricService/DbtLocalMetricService.ts`
  (`listMetrics`, `queryMetric`: subprocess argument vectors, the
  `{.*}`-regex span extraction, the `<<<MAPI-BEGIN>>>` delimiter logic),
* `src/server/src/routes/graphql.ts`
  (`graphqlInit`, `metricToGraphQLType`, `metricResolver`),
* `src/server/src/index.ts`
  (the legacy `listMetrics`, the `/run` handler, both built on `execSync`
  shell strings).

Subprocess execution is modelled by passing the external engine's result
(exit status plus captured stdout) as an explicit parameter; everything the
TypeScript code does to build the invocation and to postprocess the output
is translated faithfully, including JavaScript semantics of `indexOf`
(-1 on absence), `slice`, `trimEnd`, `match(/\x7b.*\x7d/g)`, truthiness of
empty strings, object-literal key override, and `JSON.parse` (a value
followed only by whitespace).
-/

/-! ## JSON values and a model of JavaScript `JSON.parse` -/

/-- A parsed JSON value.  Numbers are represented exactly as rationals
(JavaScript number semantics beyond exact decimal values are not needed by
any input in this development). -/
inductive Json where
  | null
  | bool (b : Bool)
  | num (q : Rat)
  | str (s : String)
  | arr (xs : List Json)
  | obj (kvs : List (String × Json))
deriving Repr

/-- JavaScript object-key assignment: an existing key keeps its position and
gets the new value, a new key is appended.  Used both for object literals /
spreads and for duplicate keys in `JSON.parse`. -/
def jsObjInsert {α : Type} : List (String × α) → String → α → List (String × α)
  | [], k, v => [(k, v)]
  | p :: t, k, v => if p.1 = k then (k, v) :: t else p :: jsObjInsert t k v

/-- Property lookup on a JavaScript-style object. -/
def jsObjLookup {α : Type} : List (String × α) → String → Option α
  | [], _ => none
  | p :: t, k => if p.1 = k then some p.2 else jsObjLookup t k

/-- Skip JSON whitespace. -/
def skipWs : List Char → List Char :=
  List.dropWhile (fun c => c = ' ' || c = '\n' || c = '\t' || c = '\r')

/-- Scan a JSON string body (the opening quote already consumed), handling
the escape sequences that occur in engine output.  Returns the decoded
characters and the remaining input. -/
def pStrAux : List Char → List Char → Option (List Char × List Char)
  | [], _ => none
  | c :: rest, acc =>
    if c = '"' then some (acc.reverse, rest)
    else if c = '\\' then
      match rest with
      | [] => none
      | e :: rest2 =>
        let dec : Option Char :=
          if e = '"' then some '"'
          else if e = '\\' then some '\\'
          else if e = '/' then some '/'
          else if e = 'n' then some '\n'
          else if e = 't' then some '\t'
          else if e = 'r' then some '\r'
          else if e = 'b' then some '\x08'
          else if e = 'f' then some '\x0c'
          else none
        match dec with
        | some d => pStrAux rest2 (d :: acc)
        | none => none
    else pStrAux rest (c :: acc)

/-- Digits to a natural number. -/
def digitsToNat (ds : List Char) : Nat :=
  ds.foldl (fun n c => 10 * n + (c.toNat - '0'.toNat)) 0

/-- Parse an optional exponent part and finish a JSON number. -/
def pExp (base : Rat) (cs : List Char) : Option (Json × List Char) :=
  match cs with
  | c :: t =>
    if c = 'e' || c = 'E' then
      let se : Int × List Char :=
        match t with
        | '+' :: u => (1, u)
        | '-' :: u => (-1, u)
        | _ => (1, t)
      let eds := se.2.takeWhile Char.isDigit
      let t2 := se.2.dropWhile Char.isDigit
      if eds.isEmpty then none
      else some (.num (base * (10 : Rat) ^ (se.1 * (digitsToNat eds : Int))), t2)
    else some (.num base, cs)
  | [] => some (.num base, [])

/-- Parse a JSON number. -/
def pNum (cs : List Char) : Option (Json × List Char) :=
  let sc : Rat × List Char :=
    match cs with
    | '-' :: t => (-1, t)
    | _ => (1, cs)
  let ids := sc.2.takeWhile Char.isDigit
  let cs2 := sc.2.dropWhile Char.isDigit
  if ids.isEmpty then none
  else
    match cs2 with
    | '.' :: t =>
      let fds := t.takeWhile Char.isDigit
      let cs3 := t.dropWhile Char.isDigit
      if fds.isEmpty then none
      else pExp (sc.1 * ((digitsToNat ids : Rat) +
        (digitsToNat fds : Rat) / (10 : Rat) ^ fds.length)) cs3
    | _ => pExp (sc.1 * (digitsToNat ids : Rat)) cs2

mutual

/-- Parse one JSON value (fueled recursive descent). -/
def pVal : Nat → List Char → Option (Json × List Char)
  | 0, _ => none
  | f + 1, cs =>
    match skipWs cs with
    | [] => none
    | c :: rest =>
      if c = '"' then
        (pStrAux rest []).map (fun p => (Json.str (String.mk p.1), p.2))
      else if c = '[' then
        match skipWs rest with
        | ']' :: r2 => some (Json.arr [], r2)
        | r2 => pArrItems f r2 []
      else if c = '{' then
        match skipWs rest with
        | '}' :: r2 => some (Json.obj [], r2)
        | r2 => pObjItems f r2 []
      else if c = 't' then
        match rest with
        | 'r' :: 'u' :: 'e' :: r => some (Json.bool true, r)
        | _ => none
      else if c = 'f' then
        match rest with
        | 'a' :: 'l' :: 's' :: 'e' :: r => some (Json.bool false, r)
        | _ => none
      else if c = 'n' then
        match rest with
        | 'u' :: 'l' :: 'l' :: r => some (Json.null, r)
        | _ => none
      else pNum (c :: rest)

/-- Parse the items of a JSON array after the opening bracket. -/
def pArrItems : Nat → List Char → List Json → Option (Json × List Char)
  | 0, _, _ => none
  | f + 1, cs, acc =>
    match pVal f cs with
    | none => none
    | some (v, rest) =>
      match skipWs rest with
      | ',' :: r2 => pArrItems f r2 (v :: acc)
      | ']' :: r2 => some (Json.arr (v :: acc).reverse, r2)
      | _ => none

/-- Parse the members of a JSON object after the opening brace. -/
def pObjItems : Nat → List Char → List (String × Json) →
    Option (Json × List Char)
  | 0, _, _ => none
  | f + 1, cs, acc =>
    match skipWs cs with
    | '"' :: r1 =>
      match pStrAux r1 [] with
      | none => none
      | some (kcs, r2) =>
        match skipWs r2 with
        | ':' :: r3 =>
          match pVal f r3 with
          | none => none
          | some (v, r4) =>
            let acc2 := jsObjInsert acc (String.mk kcs) v
            match skipWs r4 with
            | ',' :: r5 => pObjItems f r5 acc2
            | '}' :: r5 => some (Json.obj acc2, r5)
            | _ => none
        | _ => none
    | _ => none

end

/-- Model of `JSON.parse`: one value, then only trailing whitespace. -/
def parseJsonCh (cs : List Char) : Option Json :=
  match pVal (2 * cs.length + 4) cs with
  | some (v, rest) => if (skipWs rest).isEmpty then some v else none
  | none => none

example : parseJsonCh "\x7b\"x\":1\x7d".data =
    some (Json.obj [("x", Json.num 1)]) := by with_unfolding_all rfl

example : parseJsonCh "[undefined]".data = none := rfl

/-! ## JavaScript string primitives used by the source -/

/-- The whitespace class relevant to `String.prototype.trimEnd` on the
engine's (ASCII) output. -/
def jsIsWs (c : Char) : Bool :=
  c = ' ' || c = '\n' || c = '\t' || c = '\r' || c = '\x0b' || c = '\x0c'

/-- Model of `String.prototype.trimEnd` (character-list level). -/
def jsTrimEnd (cs : List Char) : List Char :=
  (cs.reverse.dropWhile jsIsWs).reverse

/-- Is `needle` a prefix of `hay`? -/
def isPrefixCh : List Char → List Char → Bool
  | [], _ => true
  | _ :: _, [] => false
  | n :: ns, h :: hs => n = h && isPrefixCh ns hs

/-- First index at which `needle` occurs in `hay` (`none` if absent). -/
def idxOfAux (needle : List Char) : List Char → Option Nat
  | [] => if needle.isEmpty then some 0 else none
  | h :: t =>
    if isPrefixCh needle (h :: t) then some 0
    else (idxOfAux needle t).map (fun n => n + 1)

/-- Model of `String.prototype.indexOf`: index of the first occurrence, or
`-1` when the needle does not occur. -/
def jsIndexOf (hay needle : List Char) : Int :=
  match idxOfAux needle hay with
  | some n => (n : Int)
  | none => -1

/-- Model of one-argument `String.prototype.slice` (negative start counts
from the end, clamped at 0). -/
def jsSliceFrom (cs : List Char) (start : Int) : List Char :=
  let len : Int := (cs.length : Int)
  let s : Int := if start < 0 then max (len + start) 0 else min start len
  cs.drop s.toNat

/-- Does `sub` occur in `s`?  (Model of `String.prototype.includes`.) -/
def containsSub (s sub : String) : Bool :=
  (idxOfAux sub.data s.data).isSome

/-- The LineTerminator characters of ECMA-262 (LF, CR, LS, PS): exactly
the characters a JavaScript regex `.` does not match. -/
def jsLineTerm (c : Char) : Bool :=
  c = '\n' || c = '\r' || c = '\u2028' || c = '\u2029'

/-- Split a character list at LineTerminator characters into its maximal
terminator-free segments, in order: the only stretches of the input
within which `/\x7b.*\x7d/g` can find a match, since `.` matches no
LineTerminator. -/
def splitLines : List Char → List (List Char)
  | [] => [[]]
  | c :: rest =>
    if jsLineTerm c then [] :: splitLines rest
    else
      match splitLines rest with
      | h :: t => (c :: h) :: t
      | [] => [[c]]

/-- Join character-list chunks with a separator character (the shape of the
engine's line-per-object output, and of JavaScript `Array.prototype.toString`
which joins with `','`). -/
def joinCh (sep : Char) : List (List Char) → List Char
  | [] => []
  | [l] => l
  | l :: ls => l ++ sep :: joinCh sep ls

/-- Index of the first occurrence of a character. -/
def firstIdxOf (c : Char) : List Char → Option Nat
  | [] => none
  | x :: xs =>
    if x = c then some 0
    else (firstIdxOf c xs).map (fun n => n + 1)

/-- Index of the last occurrence of a character. -/
def lastIdxOf (c : Char) : List Char → Option Nat
  | [] => none
  | x :: xs =>
    match lastIdxOf c xs with
    | some j => some (j + 1)
    | none => if x = c then some 0 else none

/-- The match of the regular expression `/\x7b.*\x7d/g` within one
terminator-free segment (`.` matches no LineTerminator, `.*` is greedy):
the span from the first `'\x7b'` to the last `'\x7d'` after it, if any.
Because the greedy match ends at the segment's last `'\x7d'`, a segment
contains at most one match.  `extractSpans` below only ever applies this
to the terminator-free segments produced by `splitLines`. -/
def lineMatch (l : List Char) : Option (List Char) :=
  match firstIdxOf '{' l, lastIdxOf '}' l with
  | some i, some j => if i < j then some ((l.drop i).take (j - i + 1)) else none
  | _, _ => none

/-- Model of `s.match(/\x7b.*\x7d/g)`: all matched spans in order, or `none`
(JavaScript `null`) when there is no match. -/
def extractSpans (cs : List Char) : Option (List (List Char)) :=
  let ms := (splitLines cs).filterMap lineMatch
  if ms.isEmpty then none else some ms

example : extractSpans "\x7b\"n\":\r\"a\"\x7d".data = none := by decide

example : extractSpans "\x7b\"name\":\"a\"\x7d\n\x7b\"name\":\"b\"\x7d".data
    = some ["\x7b\"name\":\"a\"\x7d".data, "\x7b\"name\":\"b\"\x7d".data] := by decide

example : extractSpans "No nodes selected".data = none := by decide

/-! ## Data model

Shapes from `src/server/src/services/MetricService/DbtLocalMetricService.ts`
(and the `DBTResource` interface repeated in `src/server/src/index.ts`). -/

/-- The selector filters applied client-side after discovery
(`Selectors` of the service surface; the legacy surface omits
`package_name`). -/
structure Selectors where
  type : Option String := none
  model : Option String := none
  package_name : Option String := none
deriving Repr, DecidableEq

/-- The arguments of a `run_metric` invocation (`QueryParams`);
`format` defaults to `"json"` at the use site, as in the source. -/
structure QueryParams where
  metric_name : Option String := none
  grain : Option String := none
  dimensions : Option (List String) := none
  start_date : Option String := none
  end_date : Option String := none
  format : Option String := none
deriving Repr, DecidableEq

/-- A discovered metric definition (the `DBTResource` interface). -/
structure DBTResource where
  name : String
  label : String := ""
  description : String := ""
  type : String := ""
  time_grains : List String := []
  dimensions : List String := []
  filters : List String := []
  unique_id : String := ""
  model : String := ""
  package_name : String := ""
deriving Repr, DecidableEq

/-- A subprocess invocation handed to the process launcher: either a
command with a discrete argument vector (`execFileSync`) or a single
shell command string (`execSync`). -/
inductive Invocation where
  | vector (cmd : String) (args : List String)
  | shell (cmd : String)
deriving Repr, DecidableEq

/-- Is the invocation an argument-vector invocation? -/
def Invocation.isVector : Invocation → Bool
  | .vector _ _ => true
  | .shell _ => false

/-- The shell string of a `shell` invocation (empty for `vector`). -/
def Invocation.shellText : Invocation → String
  | .vector _ _ => ""
  | .shell s => s

/-- Failure of `listMetrics`: either the subprocess threw (non-zero exit,
modelled by its diagnostic text) or `JSON.parse` threw on the wrapped
span text. -/
inductive DErr where
  | procFail (stdout : String)
  | parseFail
deriving Repr, DecidableEq

/-- Failure of `queryMetric`: the `catch` block rethrows
`Error(error.stdout)`; `execFail` carries the engine's stdout for a
subprocess failure, `parseFail` marks a `JSON.parse` `SyntaxError`
(whose `stdout` is `undefined`).  `malformed` is the spec's
`MalformedResultError`, produced only by the spec-side model. -/
inductive QErr where
  | execFail (stdout : String)
  | parseFail
  | malformed
deriving Repr, DecidableEq

/-- A query result: the value `JSON.parse` produced, or raw delimited
text (the latter only arises in the spec-side model). -/
inductive QueryResult where
  | jsonVal (j : Json)
  | rawText (s : String)
deriving Repr

/-! ## `DbtLocalMetricService.listMetrics` -/

/-- `name.replace(/"/g, '')`: remove every double-quote character. -/
def stripQuotes (s : String) : String :=
  String.mk (s.data.filter (fun c => c ≠ '"'))

/-- The `--select` value:
`const select = name ? ('metric:' + name.replace(/"/g, '')) : ''`
(JavaScript truthiness: `undefined` and `''` are falsy). -/
def selectOf (name : Option String) : String :=
  match name with
  | none => ""
  | some n => if n = "" then "" else "metric:" ++ stripQuotes n

/-- A `['--flag', value]` pair for an optionally configured flag. -/
def optFlag (flag : String) : Option String → List String
  | some v => [flag, v]
  | none => []

/-- The argument vector `listMetrics` hands to `execFileSync('dbt', ...)`. -/
def listMetricsArgs (target profile profilesDir : Option String)
    (name : Option String) : List String :=
  let select := selectOf name
  ["ls"]
    ++ optFlag "--target" target
    ++ optFlag "--profile" profile
    ++ optFlag "--profiles-dir" profilesDir
    ++ (if select = "" then [] else ["--select", select])
    ++ ["--resource-type", "metric", "--output", "json", "--output-keys",
        "\"name model label description type time_grains dimensions filters unique_id package_name\""]

/-- The full discovery invocation of the service surface. -/
def serviceListInvocation (target profile profilesDir : Option String)
    (name : Option String) : Invocation :=
  .vector "dbt" (listMetricsArgs target profile profilesDir name)

/-- Strict JavaScript `===` comparison of a parsed JSON field value with a
string selector. -/
def jsonIsStr (j : Json) (t : String) : Bool :=
  match j with
  | .str s => s = t
  | _ => false

/-- Field access on a parsed metric object (`metric.type` etc.). -/
def jfield (j : Json) (k : String) : Option Json :=
  match j with
  | .obj kvs => jsObjLookup kvs k
  | _ => none

/-- `metric.f === t` for a selector string `t` (`undefined === t` is
false). -/
def fieldIsStr (m : Json) (k t : String) : Bool :=
  match jfield m k with
  | some v => jsonIsStr v t
  | none => false

/-- Result processing of `DbtLocalMetricService.listMetrics`: the
subprocess result is passed explicitly (`.error` models a non-zero exit,
which `execFileSync` raises; `.ok out` is the captured stdout).  On
success the source computes
`JSON.parse('[' + out.trimEnd().match(/\x7b.*\x7d/g)?.toString() + ']')`
(a null match yields the text `[undefined]`) and then applies the
`type` / `model` / `package_name` filters client-side. -/
def listMetricsModel (proc : Except String String) (name : Option String)
    (sel : Selectors) : Except DErr (List Json) :=
  match proc with
  | .error e => .error (.procFail e)
  | .ok out =>
    let resChars : List Char :=
      '[' :: (match extractSpans (jsTrimEnd out.data) with
              | some ms => joinCh ',' ms
              | none => "undefined".data) ++ [']']
    match parseJsonCh resChars with
    | some (Json.arr items) =>
      let m1 := match sel.type with
        | some t => items.filter (fun m => fieldIsStr m "type" t)
        | none => items
      let m2 := match sel.model with
        | some t => m1.filter (fun m => fieldIsStr m "model" t)
        | none => m1
      let m3 := match sel.package_name with
        | some t => m2.filter (fun m => fieldIsStr m "package_name" t)
        | none => m2
      .ok m3
    | _ => .error .parseFail

/-! ## `DbtLocalMetricService.queryMetric` -/

/-- The delimiter constant `BREAK_STRING` of `queryMetric`. -/
def BREAK_STRING : String := "<<<MAPI-BEGIN>>>\n"

/-- `raw_output.slice(raw_output.indexOf(BREAK_STRING) + BREAK_STRING.length)`
— note that when the delimiter is absent `indexOf` yields `-1`, so the
slice starts at the fixed index `BREAK_STRING.length - 1 = 16`. -/
def payloadAfterDelim (raw : String) : List Char :=
  jsSliceFrom raw.data
    (jsIndexOf raw.data BREAK_STRING.data + (BREAK_STRING.data.length : Int))

/-- JSON-string-escape a value for `JSON.stringify` (the escapes relevant
to the strings this server passes around; single quotes are NOT escaped). -/
def jsEsc (s : String) : String :=
  String.mk (s.data.flatMap (fun c =>
    if c = '"' then ['\\', '"']
    else if c = '\\' then ['\\', '\\']
    else if c = '\n' then ['\\', 'n']
    else if c = '\t' then ['\\', 't']
    else if c = '\r' then ['\\', 'r']
    else [c]))

/-- A JSON string literal for `JSON.stringify`. -/
def jsonStrLit (s : String) : String := "\"" ++ jsEsc s ++ "\""

/-- `JSON.stringify({metric_name, grain, dimensions, start_date, end_date,
format})`: keys in declaration order, `undefined` members omitted, the
`format` argument already defaulted by the caller. -/
def jsonStringifyQuery (p : QueryParams) : String :=
  let members : List (Option String) :=
    [ p.metric_name.map (fun v => "\"metric_name\":" ++ jsonStrLit v)
    , p.grain.map (fun v => "\"grain\":" ++ jsonStrLit v)
    , p.dimensions.map (fun ds =>
        "\"dimensions\":[" ++
          String.mk (joinCh ',' (ds.map (fun d => (jsonStrLit d).data))) ++ "]")
    , p.start_date.map (fun v => "\"start_date\":" ++ jsonStrLit v)
    , p.end_date.map (fun v => "\"end_date\":" ++ jsonStrLit v)
    , some ("\"format\":" ++ jsonStrLit (p.format.getD "json")) ]
  "\x7b" ++
    String.mk (joinCh ',' ((members.filterMap id).map String.data)) ++ "\x7d"

/-- The argument vector `queryMetric` hands to
`execFileSync('dbt', ['run-operation', ...])`. -/
def runMetricArgs (target profile profilesDir : Option String)
    (p : QueryParams) : List String :=
  ["run-operation"]
    ++ optFlag "--target" target
    ++ optFlag "--profile" profile
    ++ optFlag "--profiles-dir" profilesDir
    ++ ["dbt_metrics_api.run_metric", "--args", jsonStringifyQuery p]

/-- The full `run_metric` invocation of the service surface. -/
def serviceRunInvocation (target profile profilesDir : Option String)
    (p : QueryParams) : Invocation :=
  .vector "dbt" (runMetricArgs target profile profilesDir p)

/-- Result processing of `DbtLocalMetricService.queryMetric`.  The
subprocess result is passed explicitly.  On success the source returns
`JSON.parse(raw_output.slice(raw_output.indexOf(BREAK_STRING) +
BREAK_STRING.length))` — unconditionally, for every `format`; the
`catch` block rethrows `Error(error.stdout)`. -/
def queryMetricModel (proc : Except String String) (p : QueryParams) :
    Except QErr QueryResult :=
  match proc with
  | .error stdout => .error (.execFail stdout)
  | .ok raw =>
    match parseJsonCh (payloadAfterDelim raw) with
    | some v => .ok (.jsonVal v)
    | none => .error .parseFail
  
/-- The Resolver's result handling as the spec words it (§4.4 steps 4–5),
kept side by side with `queryMetricModel` for comparison: locate the
delimiter (absence is a `MalformedResultError`), then for `format=json`
parse the payload as a single JSON value and for `format=csv` return the
raw delimited text unparsed. -/
def queryMetricSpec (proc : Except String String) (p : QueryParams) :
    Except QErr QueryResult :=
  match proc with
  | .error stdout => .error (.execFail stdout)
  | .ok raw =>
    match idxOfAux BREAK_STRING.data raw.data with
    | none => .error .malformed
    | some i =>
      let payload := raw.data.drop (i + BREAK_STRING.data.length)
      if p.format.getD "json" = "csv" then
        .ok (.rawText (String.mk payload))
      else
        match parseJsonCh payload with
        | some v => .ok (.jsonVal v)
        | none => .error .malformed

/-! ## The legacy surface of `src/server/src/index.ts`

Both handlers there build a single shell command string and run it with
`execSync` — caller-supplied values are interpolated into the string. -/

/-- The `execSync` shell string of the legacy `listMetrics`
(`src/server/src/index.ts`, lines 46–54): the `--select` flag with the
quote-stripped name is interpolated into the command text. -/
def indexListCommand (dbtProjectPath : String) (name : Option String) :
    String :=
  let select :=
    match name with
    | none => ""
    | some n => if n = "" then "" else "--select \"metric:" ++ stripQuotes n ++ "\""
  "cd " ++ dbtProjectPath ++ " &&        dbt ls --resource-type metric --output json         --output-keys \"name model label description type time_grains dimensions filters unique_id\"         " ++ select

/-- The legacy discovery invocation: a single shell string. -/
def indexListInvocation (dbtProjectPath : String) (name : Option String) :
    Invocation :=
  .shell (indexListCommand dbtProjectPath name)

/-- The `execSync` shell string of the `/run` handler
(`src/server/src/index.ts`, lines 108–122): the JSON-stringified,
caller-supplied body is interpolated between single quotes. -/
def indexRunCommand (dbtProjectPath dbtTarget : String) (p : QueryParams) :
    String :=
  "cd " ++ dbtProjectPath ++ " &&            dbt run-operation --target "
    ++ dbtTarget ++ " dbt_metrics_api.run_metric --args '"
    ++ jsonStringifyQuery p ++ "'\n        "

/-- The `/run` engine invocation: a single shell string. -/
def indexRunInvocation (dbtProjectPath dbtTarget : String)
    (p : QueryParams) : Invocation :=
  .shell (indexRunCommand dbtProjectPath dbtTarget p)

/-- What one request to `POST /run` did: the response actually sent to the
client (Express sends the first `res.send`; a later `res.send` throws
`ERR_HTTP_HEADERS_SENT`, aborting the handler), and whether the external
engine was invoked. -/
structure RunTrace where
  sent : Nat × String
  invoked : Bool
deriving Repr, DecidableEq

/-- The `POST /run` handler (`src/server/src/index.ts`, lines 83–129).
`body` carries the request body (`undefined` fields as `none`), `engine`
the result of the `execSync` call, were it reached.  The source sends a
400 for a missing `metric_name` and for a missing `grain` but does not
return, so control continues into the `try` block; a second `res.send`
on an already-sent response throws synchronously, which is modelled by
stopping the handler at that point. -/
def runHandler (body : QueryParams) (engine : Except String String) :
    RunTrace :=
  if body.metric_name.getD "" = "" then
    if body.grain.getD "" = "" then
      -- second `res.status(400).send` throws: the `try` block is never
      -- reached
      { sent := (400, "metric_name is a required property; no metric_name given")
        invoked := false }
    else
      -- 400 already sent; `execSync` still runs; the later send throws
      { sent := (400, "metric_name is a required property; no metric_name given")
        invoked := true }
  else if body.grain.getD "" = "" then
    { sent := (400, "grain is a required property; no grain given")
      invoked := true }
  else
    match engine with
    | .ok raw =>
      { sent := (200, String.mk (jsSliceFrom raw.data
          (jsIndexOf raw.data "\n".data + 1)))
        invoked := true }
    | .error e => { sent := (404, e), invoked := true }

/-! ## The graphql surface (`src/server/src/routes/graphql.ts`) -/

/-- A GraphQL scalar type as used by the schema synthesizer. -/
inductive GType where
  | string
  | float
deriving Repr, DecidableEq

/-- `metricToGraphQLType`: the fields of the synthesized result object
type, built exactly like the source object literal
`\x7bperiod: String, [metric.name]: Float, ...dimensionEntries\x7d`
(later keys override earlier ones in place). -/
def metricToGraphQLFields (metric : DBTResource) : List (String × GType) :=
  metric.dimensions.foldl (fun acc d => jsObjInsert acc d .string)
    (jsObjInsert (jsObjInsert [] "period" .string) metric.name .float)

/-- One synthesized schema field: the result object type of the
`GraphQLList` the metric's query field returns (its `grain` /
`start_date` / `end_date` arguments are fixed by the source and carry no
per-metric information). -/
structure GFieldDef where
  resultType : List (String × GType)
deriving Repr, DecidableEq

/-- The `Query` type's fields, keyed by metric name
(`Object.fromEntries(availableMetrics.map ...)`). -/
def synthesizeSchema (ms : List DBTResource) : List (String × GFieldDef) :=
  ms.foldl (fun acc m => jsObjInsert acc m.name ⟨metricToGraphQLFields m⟩) []

/-- The keys of the resolver binding table
(`availableMetrics.reduce((prev, current) => (\x7b...prev,
[current.name]: metricResolver\x7d), \x7b\x7d)`; every value is the same
`metricResolver`, so only the keys matter). -/
def rootNames (ms : List DBTResource) : List String :=
  ms.foldl (fun acc m => if acc.contains m.name then acc else acc ++ [m.name]) []

/-- One middleware layer mounted by `router.use('/', ...)`: either a
`graphqlHTTP` handler closing over a schema plus resolver bindings
(which terminates every request it receives), or the fallback
middleware (which re-runs `graphqlInit` and calls `next()`). -/
inductive Handler where
  | gql (schemaFields : List (String × GFieldDef)) (rootKeys : List String)
  | fallback
deriving Repr, DecidableEq

/-- Is this layer a schema-serving `graphqlHTTP` handler? -/
def Handler.isGql : Handler → Bool
  | .gql _ _ => true
  | .fallback => false

/-- The handler that answers a request on the router: Express runs the
stack in mount order, and the first `graphqlHTTP` layer terminates the
request (the fallback layers before it only call `next()`), so readers
are served by the first `gql` layer. -/
def servedGql (stack : List Handler) : Option Handler :=
  stack.find? Handler.isGql

/-- `graphqlInit`: discovery (the `listMetrics()` call, whose outcome is
the explicit `discovery` parameter) is wrapped in `try/catch` — on
failure the error is logged (`console.warn`) and `availableMetrics`
stays `[]`.  The schema and binding table are rebuilt and one new layer
is appended to the router stack (`router.use` never removes previous
layers); with an empty binding table the appended layer is the fallback.
Returns the new stack and the log entries written. -/
def graphqlInitModel (discovery : Except String (List DBTResource))
    (stack : List Handler) : List Handler × List String :=
  let am : List DBTResource × List String :=
    match discovery with
    | .ok ms => (ms, [])
    | .error e => ([], [e])
  let availableMetrics := am.1
  let root := rootNames availableMetrics
  let handler :=
    if root.length > 0 then
      Handler.gql (synthesizeSchema availableMetrics) root
    else
      Handler.fallback
  (stack ++ [handler], am.2)

/-- `metricResolver`'s argument object (`grain` is non-null in the
schema; the date bounds are optional). -/
structure MetricArgs where
  grain : String
  start_date : Option String := none
  end_date : Option String := none
deriving Repr, DecidableEq

/-- `NON_DIMENSION_FIELDS = [fieldName, 'period']`. -/
def NON_DIMENSION_FIELDS (fieldName : String) : List String :=
  [fieldName, "period"]

/-- The dimension list `metricResolver` derives from the requested
sub-fields: the selection names with `fieldName` and `'period'` filtered
out, order preserved. -/
def deriveDimensions (fieldName : String) (subFields : List String) :
    List String :=
  subFields.filter (fun f => !(NON_DIMENSION_FIELDS fieldName).contains f)

/-- The `QueryParams` value `metricResolver` passes to `queryMetric`:
`\x7bmetric_name: fieldName, dimensions: <derived>, ...args\x7d`. -/
def metricResolverParams (fieldName : String) (subFields : List String)
    (args : MetricArgs) : QueryParams :=
  { metric_name := some fieldName
    grain := some args.grain
    dimensions := some (deriveDimensions fieldName subFields)
    start_date := args.start_date
    end_date := args.end_date
    format := none }

/-! ## Helper lemmas -/

theorem data_mk (l : List Char) : (String.mk l).data = l := rfl

theorem jsObjLookup_insert_self {α : Type} (fs : List (String × α))
    (k : String) (v : α) : jsObjLookup (jsObjInsert fs k v) k = some v := by
  induction fs with
  | nil => simp [jsObjInsert, jsObjLookup]
  | cons p t ih =>
    by_cases h : p.1 = k <;> simp [jsObjInsert, jsObjLookup, h, ih]

theorem jsObjLookup_insert_ne {α : Type} (fs : List (String × α))
    (k k' : String) (v : α) (h : k' ≠ k) :
    jsObjLookup (jsObjInsert fs k v) k' = jsObjLookup fs k' := by
  induction fs with
  | nil => simp [jsObjInsert, jsObjLookup, Ne.symm h]
  | cons p t ih =>
    by_cases hp : p.1 = k
    · simp [jsObjInsert, jsObjLookup, hp, Ne.symm h]
    · simp [jsObjInsert, jsObjLookup, hp, ih]

theorem jsObjLookup_foldl_strings (ds : List String)
    (acc : List (String × GType)) (k : String) :
    jsObjLookup (ds.foldl (fun a d => jsObjInsert a d .string) acc) k =
      if k ∈ ds then some .string else jsObjLookup acc k := by
  induction ds generalizing acc with
  | nil => simp
  | cons d t ih =>
    simp only [List.foldl_cons, ih]
    by_cases hk : k ∈ t
    · simp [hk, List.mem_cons]
    · by_cases hd : k = d
      · subst hd
        simp [hk, jsObjLookup_insert_self]
      · simp [hk, hd, jsObjLookup_insert_ne _ _ _ _ hd]

theorem jsObjLookup_insert_isSome {α : Type} (fs : List (String × α))
    (k k' : String) (v : α) :
    (jsObjLookup (jsObjInsert fs k v) k').isSome ↔
      k' = k ∨ (jsObjLookup fs k').isSome := by
  by_cases h : k' = k
  · subst h
    simp [jsObjLookup_insert_self]
  · simp [jsObjLookup_insert_ne _ _ _ _ h, h]

theorem jsObjLookup_foldl_strings_isSome (ds : List String)
    (acc : List (String × GType)) (k : String) :
    (jsObjLookup (ds.foldl (fun a d => jsObjInsert a d .string) acc) k).isSome ↔
      k ∈ ds ∨ (jsObjLookup acc k).isSome := by
  rw [jsObjLookup_foldl_strings]
  by_cases h : k ∈ ds <;> simp [h]

theorem splitLines_ne_nil (l : List Char) : splitLines l ≠ [] := by
  induction l with
  | nil => simp [splitLines]
  | cons c t ih =>
    cases h : jsLineTerm c
    · simp only [splitLines, h, Bool.false_eq_true, if_false]
      cases hs : splitLines t with
      | nil => exact absurd hs ih
      | cons a b => simp
    · simp [splitLines, h]

theorem splitLines_no_term (l : List Char)
    (h : ∀ c ∈ l, jsLineTerm c = false) : splitLines l = [l] := by
  induction l with
  | nil => rfl
  | cons c t ih =>
    have hc : jsLineTerm c = false := h c (by simp)
    have ht : splitLines t = [t] := ih (fun x hx => h x (by simp [hx]))
    simp [splitLines, hc, ht]

theorem splitLines_append (l r : List Char)
    (h : ∀ c ∈ l, jsLineTerm c = false) :
    splitLines (l ++ '\n' :: r) = l :: splitLines r := by
  induction l with
  | nil => simp [splitLines, jsLineTerm]
  | cons c t ih =>
    have hc : jsLineTerm c = false := h c (by simp)
    have ht := ih (fun x hx => h x (by simp [hx]))
    simp [splitLines, hc, ht]

theorem splitLines_joinCh (lines : List (List Char)) (hne : lines ≠ [])
    (h : ∀ l ∈ lines, ∀ c ∈ l, jsLineTerm c = false) :
    splitLines (joinCh '\n' lines) = lines := by
  induction lines with
  | nil => contradiction
  | cons l ls ih =>
    cases ls with
    | nil => exact splitLines_no_term l (h l (by simp))
    | cons l2 ls2 =>
      have : joinCh '\n' (l :: l2 :: ls2) = l ++ '\n' :: joinCh '\n' (l2 :: ls2) := rfl
      rw [this, splitLines_append l _ (h l (by simp)),
        ih (by simp) (fun x hx => h x (by simp [hx]))]

theorem firstIdxOf_head (c : Char) (t : List Char) :
    firstIdxOf c (c :: t) = some 0 := by
  simp [firstIdxOf]

theorem lastIdxOf_concat (c : Char) (l : List Char) :
    lastIdxOf c (l ++ [c]) = some l.length := by
  induction l with
  | nil => simp [lastIdxOf]
  | cons x t ih => simp [lastIdxOf, ih]

theorem lineMatch_objLine (mid : List Char) :
    lineMatch ('{' :: mid ++ ['}']) = some ('{' :: mid ++ ['}']) := by
  have h1 : firstIdxOf '{' ('{' :: mid ++ ['}']) = some 0 := firstIdxOf_head _ _
  have h2 : lastIdxOf '}' ('{' :: mid ++ ['}']) = some (mid.length + 1) := by
    have := lastIdxOf_concat '}' mid
    simp [lastIdxOf, this]
  have h3 : ('{' :: mid ++ ['}']).length = mid.length + 2 := by simp
  simp only [lineMatch, h1, h2]
  rw [if_pos (Nat.succ_pos _)]
  simp [List.take_of_length_le, h3]

theorem filterMap_lineMatch (lines : List (List Char))
    (h : ∀ l ∈ lines, ∃ mid,
      l = '{' :: mid ++ ['}'] ∧ ∀ c ∈ mid, jsLineTerm c = false) :
    lines.filterMap lineMatch = lines := by
  induction lines with
  | nil => rfl
  | cons l t ih =>
    obtain ⟨mid, hl, -⟩ := h l (by simp)
    rw [List.filterMap_cons, hl, lineMatch_objLine]
    rw [ih (fun x hx => h x (by simp [hx]))]

theorem jsTrimEnd_eq_self (cs : List Char)
    (h : ∀ c, cs.getLast? = some c → jsIsWs c = false) : jsTrimEnd cs = cs := by
  unfold jsTrimEnd
  cases hrev : cs.reverse with
  | nil =>
    have : cs = [] := by simpa using congrArg List.reverse hrev
    simp [this]
  | cons x t =>
    have hx : cs.getLast? = some x := by
      rw [← List.head?_reverse, hrev]
      rfl
    rw [List.dropWhile_cons, h x hx]
    simp only [Bool.false_eq_true, if_false, ← hrev, List.reverse_reverse]

theorem joinCh_getLast (lines : List (List Char)) (c : Char)
    (hne : lines ≠ []) (h : ∀ l ∈ lines, l.getLast? = some c) :
    (joinCh '\n' lines).getLast? = some c := by
  induction lines with
  | nil => contradiction
  | cons l ls ih =>
    cases ls with
    | nil => exact h l (by simp)
    | cons l2 ls2 =>
      have hj : joinCh '\n' (l :: l2 :: ls2) = l ++ '\n' :: joinCh '\n' (l2 :: ls2) := rfl
      have ih2 := ih (by simp) (fun x hx => h x (by simp [hx]))
      rw [hj, List.getLast?_append]
      cases hc : joinCh '\n' (l2 :: ls2) with
      | nil => rw [hc] at ih2; simp at ih2
      | cons y ys =>
        rw [hc] at ih2
        simp [List.getLast?_cons_cons, ih2]

theorem servedGql_append_fallback (stack : List Handler) :
    servedGql (stack ++ [Handler.fallback]) = servedGql stack := by
  induction stack with
  | nil => rfl
  | cons h t ih =>
    simp only [servedGql, List.cons_append, List.find?_cons] at *
    cases Handler.isGql h <;> simp_all

/-! ## The claims -/

/-- C3: if the discovery call fails during a refresh (`graphqlInit`), the
previously published schema and resolver bindings remain unchanged — the
layer appended to the router stack is the pass-through fallback, so the
first `graphqlHTTP` layer (schema plus bindings) that serves readers is
the same before and after — and the failure is returned as a log entry
(`console.warn`) while `graphqlInitModel` is a total function: no
exception reaches readers. -/
theorem graphqlInit_failure_retains_served_schema
    (e : String) (stack : List Handler) :
    servedGql (graphqlInitModel (.error e) stack).1 = servedGql stack
  ∧ (graphqlInitModel (.error e) stack).2 = [e] := by
  constructor
  · show servedGql (stack ++ [Handler.fallback]) = servedGql stack
    exact servedGql_append_fallback stack
  · rfl

/-- C4: `metricResolver` passes to the engine exactly the requested
sub-fields minus `\x7bfieldName, "period"\x7d`, preserving order; in
particular sub-fields `period, revenue, region` on metric `revenue`
yield the dimension list `["region"]`. -/
theorem metricResolver_dimension_derivation
    (F : String) (S : List String) (a : MetricArgs) :
    (metricResolverParams F S a).dimensions =
      some (S.filter (fun f => decide (f ≠ F) && decide (f ≠ "period")))
  ∧ (metricResolverParams "revenue" ["period", "revenue", "region"] a).dimensions
      = some ["region"] := by
  constructor
  · show some (deriveDimensions F S) = _
    congr 1
    apply List.filter_congr
    intro f _
    simp [deriveDimensions, NON_DIMENSION_FIELDS, List.contains_cons,
      decide_not, Bool.not_or]
  · rfl

/-- C9 (failing input): a `POST /run` body with `metric_name` present and
`grain` absent is answered with status 400 and an error body, yet the
handler still reaches the `try` block and invokes the external engine —
the source never returns after `res.status(400).send(...)`. -/
theorem run_missing_grain_engine_still_invoked :
    runHandler { metric_name := some "revenue" } (.error "dbt failure") =
      { sent := (400, "grain is a required property; no grain given")
        invoked := true } := rfl

/-- C1 (failing input): an engine stdout that does not contain the
delimiter `<<<MAPI-BEGIN>>>\n`.  `indexOf` yields `-1`, so
`queryMetric` slices from the fixed index `16` and happily returns the
parsed value found there, while the spec-side model
(`MalformedResultError` on a missing delimiter) fails. -/
theorem queryMetric_no_delimiter_still_returns_value :
    idxOfAux BREAK_STRING.data "abcdefghijklmnop\x7b\"x\":1\x7d".data = none
  ∧ queryMetricModel (.ok "abcdefghijklmnop\x7b\"x\":1\x7d")
        { format := some "json" }
      = .ok (.jsonVal (Json.obj [("x", Json.num 1)]))
  ∧ queryMetricSpec (.ok "abcdefghijklmnop\x7b\"x\":1\x7d")
        { format := some "json" }
      = .error .malformed :=
  ⟨by decide, by with_unfolding_all rfl, by rfl⟩

/-- C6 (amended): `queryMetric` applies `JSON.parse` to the delimited
payload for **every** format — the result does not depend on
`params.format` at all — and returns the parsed value; csv payloads are
not returned as raw text by this surface. -/
theorem queryMetric_parses_payload_for_every_format
    (raw : String) (p q : QueryParams) (v : Json)
    (h : parseJsonCh (payloadAfterDelim raw) = some v) :
    queryMetricModel (.ok raw) p = .ok (.jsonVal v)
  ∧ queryMetricModel (.ok raw) p = queryMetricModel (.ok raw) q := by
  constructor
  · simp only [queryMetricModel, h]
  · rfl

/-- Witness for `queryMetric_parses_payload_for_every_format`, at the
spec's own example stdout, in csv mode. -/
theorem queryMetric_parses_payload_witness :
    parseJsonCh (payloadAfterDelim "notice\n<<<MAPI-BEGIN>>>\n\x7b\"x\":1\x7d")
      = some (Json.obj [("x", Json.num 1)])
  ∧ (queryMetricModel (.ok "notice\n<<<MAPI-BEGIN>>>\n\x7b\"x\":1\x7d")
        { format := some "csv" }
      = .ok (.jsonVal (Json.obj [("x", Json.num 1)]))
  ∧ queryMetricModel (.ok "notice\n<<<MAPI-BEGIN>>>\n\x7b\"x\":1\x7d")
        { format := some "csv" }
      = queryMetricModel (.ok "notice\n<<<MAPI-BEGIN>>>\n\x7b\"x\":1\x7d")
        { format := some "json" }) :=
  ⟨by with_unfolding_all rfl,
   queryMetric_parses_payload_for_every_format _ _ _ _
     (by with_unfolding_all rfl)⟩

/-- C6 (counterexample): in csv mode the source still JSON-parses the
payload `123` and returns the number `123`, while the spec-side model
returns the raw text `"123"`; the two results differ. -/
theorem queryMetric_csv_payload_parsed_not_raw :
    queryMetricModel (.ok "log\n<<<MAPI-BEGIN>>>\n123") { format := some "csv" }
      = .ok (.jsonVal (Json.num 123))
  ∧ queryMetricSpec (.ok "log\n<<<MAPI-BEGIN>>>\n123") { format := some "csv" }
      = .ok (.rawText "123")
  ∧ QueryResult.jsonVal (Json.num 123) ≠ QueryResult.rawText "123" :=
  ⟨by with_unfolding_all rfl, by rfl, fun h => QueryResult.noConfusion h⟩

/-- C7 (amended): whenever the regex span extraction finds **zero**
spans in the trimmed output, `listMetrics` fails — the concatenation
`'[' + undefined + ']'` is the text `[undefined]`, which `JSON.parse`
rejects — whether or not a name filter was supplied; and a process-level
failure (non-zero exit) always fails with the subprocess error. -/
theorem listMetrics_zero_spans_or_exit_failure
    (out : String) (name : Option String) (sel : Selectors) (e : String)
    (h : extractSpans (jsTrimEnd out.data) = none) :
    listMetricsModel (.ok out) name sel = .error .parseFail
  ∧ listMetricsModel (.error e) name sel = .error (.procFail e) := by
  constructor
  · simp only [listMetricsModel, h]
    rfl
  · rfl

/-- Witness for `listMetrics_zero_spans_or_exit_failure`: output `"x"`
holds no span. -/
theorem listMetrics_zero_spans_witness :
    extractSpans (jsTrimEnd "x".data) = none
  ∧ (listMetricsModel (.ok "x") none {} = .error .parseFail
  ∧ listMetricsModel (.error "exit 2") none {} = .error (.procFail "exit 2")) :=
  ⟨by decide, listMetrics_zero_spans_or_exit_failure "x" none {} "exit 2" (by decide)⟩

/-- C7 (counterexample): the discovery subprocess exits successfully,
its output (`"No nodes selected"`) contains zero extractable spans, and
a name filter was supplied — the source throws (a `SyntaxError` from
`JSON.parse('[undefined]')`) instead of returning the empty list. -/
theorem listMetrics_no_match_with_filter_is_error :
    listMetricsModel (.ok "No nodes selected") (some "orders") {}
      = .error .parseFail := rfl

set_option maxRecDepth 8000 in
/-- C8 (failing input): on the legacy `/run` surface the engine is
launched through `execSync` with a **single shell command string**, not
an argument vector, and the caller-supplied `metric_name` is
interpolated into that string (here carrying a shell injection through
the single-quoted `--args`); the service surface passes the same request
as a discrete argument vector. -/
theorem run_surface_shell_interpolation :
    (indexRunInvocation "/dbt" "prod"
        { metric_name := some "m'; touch /tmp/pwn; echo '"
          grain := some "month", format := some "json" }).isVector = false
  ∧ containsSub (indexRunInvocation "/dbt" "prod"
        { metric_name := some "m'; touch /tmp/pwn; echo '"
          grain := some "month", format := some "json" }).shellText
      "'; touch /tmp/pwn; echo '" = true
  ∧ (serviceRunInvocation none none none
        { metric_name := some "m'; touch /tmp/pwn; echo '"
          grain := some "month", format := some "json" }).isVector = true
  ∧ (runMetricArgs none none none
        { metric_name := some "m'; touch /tmp/pwn; echo '"
          grain := some "month", format := some "json" }).contains
      "\x7b\"metric_name\":\"m'; touch /tmp/pwn; echo '\",\"grain\":\"month\",\"format\":\"json\"\x7d"
      = true :=
  ⟨rfl, by decide, rfl, by decide⟩

/-- C10 (counterexample): the empty name `""` and the name `"\""` differ
only in double-quote characters, yet they do **not** produce the same
discovery invocation: `""` is falsy in JavaScript, so no `--select` flag
is emitted at all, while `"\""` strips to `metric:` and emits one. -/
theorem empty_and_quote_names_differ :
    stripQuotes "" = stripQuotes "\""
  ∧ listMetricsArgs none none none (some "")
      ≠ listMetricsArgs none none none (some "\"") :=
  ⟨rfl, by decide⟩

/-- C10 (amended): for **non-empty** name filters every double quote is
removed before the name is embedded in the `--select` value (so the
selector contains no quote character), and two non-empty filters that
differ only in embedded `"` characters produce the identical selector
and hence the identical discovery argument vector. -/
theorem quotes_stripped_from_selector
    (n1 n2 : String) (t p d : Option String)
    (h1 : n1 ≠ "") (h2 : n2 ≠ "") (h : stripQuotes n1 = stripQuotes n2) :
    selectOf (some n1) = "metric:" ++ stripQuotes n1
  ∧ '"' ∉ (selectOf (some n1)).data
  ∧ listMetricsArgs t p d (some n1) = listMetricsArgs t p d (some n2) := by
  have hsel1 : selectOf (some n1) = "metric:" ++ stripQuotes n1 := by
    simp [selectOf, h1]
  have hsel2 : selectOf (some n2) = "metric:" ++ stripQuotes n2 := by
    simp [selectOf, h2]
  refine ⟨hsel1, ?_, ?_⟩
  · rw [hsel1]
    have hdata : ("metric:" ++ stripQuotes n1).data
        = "metric:".data ++ (n1.data.filter (fun c => c ≠ '"')) := rfl
    rw [hdata]
    intro hmem
    rcases List.mem_append.mp hmem with hl | hr
    · simp at hl
    · have := (List.mem_filter.mp hr).2
      simp at this
  · unfold listMetricsArgs
    rw [hsel1, hsel2, h]

/-- Witness for `quotes_stripped_from_selector`: `a"b` and `ab` produce
the same selector and the same argument vector. -/
theorem quotes_stripped_from_selector_witness :
    stripQuotes "a\"b" = stripQuotes "ab"
  ∧ listMetricsArgs none none none (some "a\"b")
      = listMetricsArgs none none none (some "ab") :=
  ⟨by decide,
   (quotes_stripped_from_selector "a\"b" "ab" none none none
     (by decide) (by decide) (by decide)).2.2⟩

/-- C5 (counterexample): a metric whose own name appears among its
dimensions — `name = "region"`, `dimensions = ["region"]` — yields a
result type whose attribute `region` is a **string** (the dimension
spread overrides the numeric attribute in the object literal), not the
numeric attribute the claim requires. -/
theorem metric_named_as_dimension_is_string :
    jsObjLookup
        (metricToGraphQLFields { name := "region", dimensions := ["region"] })
        "region"
      = some GType.string
  ∧ some GType.string ≠ some GType.float :=
  ⟨rfl, by decide⟩

/-- C5 (amended): provided the metric's name is not `"period"` and does
not occur among its dimensions, the synthesized result type has exactly
the attributes `\x7bperiod\x7d ∪ \x7bname\x7d ∪ dimensions`, with
`period` and every dimension typed as strings and the attribute named
after the metric numeric. -/
theorem metricToGraphQLFields_attribute_set (m : DBTResource)
    (hname : m.name ≠ "period") (hdim : m.name ∉ m.dimensions) :
    jsObjLookup (metricToGraphQLFields m) "period" = some GType.string
  ∧ jsObjLookup (metricToGraphQLFields m) m.name = some GType.float
  ∧ (∀ d ∈ m.dimensions,
      jsObjLookup (metricToGraphQLFields m) d = some GType.string)
  ∧ (∀ k, (jsObjLookup (metricToGraphQLFields m) k).isSome ↔
      (k = "period" ∨ k = m.name ∨ k ∈ m.dimensions)) := by
  unfold metricToGraphQLFields
  refine ⟨?_, ?_, ?_, ?_⟩
  · rw [jsObjLookup_foldl_strings]
    by_cases h : "period" ∈ m.dimensions
    · simp [h]
    · rw [if_neg h, jsObjLookup_insert_ne _ _ _ _ (Ne.symm hname),
        jsObjLookup_insert_self]
  · rw [jsObjLookup_foldl_strings, if_neg hdim, jsObjLookup_insert_self]
  · intro d hd
    rw [jsObjLookup_foldl_strings, if_pos hd]
  · intro k
    rw [jsObjLookup_foldl_strings]
    by_cases h : k ∈ m.dimensions
    · simp [h]
    · rw [if_neg h]
      rw [jsObjLookup_insert_isSome, jsObjLookup_insert_isSome]
      simp only [jsObjLookup, Option.isSome_none]
      constructor
      · rintro (hk | hk | hfalse)
        · exact Or.inr (Or.inl hk)
        · exact Or.inl hk
        · simp at hfalse
      · rintro (hk | hk | hk)
        · exact Or.inr (Or.inl hk)
        · exact Or.inl hk
        · exact absurd hk h

/-- Witness for `metricToGraphQLFields_attribute_set`, at the spec's own
example: metric `revenue` with dimensions `region` and `channel`. -/
theorem metricToGraphQLFields_attribute_set_witness :
    jsObjLookup (metricToGraphQLFields
        { name := "revenue", dimensions := ["region", "channel"] }) "period"
      = some GType.string
  ∧ jsObjLookup (metricToGraphQLFields
        { name := "revenue", dimensions := ["region", "channel"] }) "revenue"
      = some GType.float
  ∧ jsObjLookup (metricToGraphQLFields
        { name := "revenue", dimensions := ["region", "channel"] }) "region"
      = some GType.string
  ∧ jsObjLookup (metricToGraphQLFields
        { name := "revenue", dimensions := ["region", "channel"] }) "channel"
      = some GType.string :=
  ⟨(metricToGraphQLFields_attribute_set _ (by decide) (by decide)).1,
   (metricToGraphQLFields_attribute_set _ (by decide) (by decide)).2.1,
   (metricToGraphQLFields_attribute_set
      { name := "revenue", dimensions := ["region", "channel"] }
      (by decide) (by decide)).2.2.1 "region" (by decide),
   (metricToGraphQLFields_attribute_set
      { name := "revenue", dimensions := ["region", "channel"] }
      (by decide) (by decide)).2.2.1 "channel" (by decide)⟩

/-- C2: for every discovery output made of concatenated top-level JSON
objects, one per line (each line an object span `\x7b...\x7d` containing
no LineTerminator character — a JSON object printed on one line cannot
contain a raw control character anyway) and no enclosing array,
`listMetrics` extracts all the spans, wraps them into one array, and
returns exactly `JSON.parse` of that array; in particular the two-line
output `\x7b"name":"a"\x7d\n\x7b"name":"b"\x7d` yields exactly two
metric entries, named `a` and `b`. -/
theorem listMetrics_concatenated_objects
    (lines : List (List Char)) (items : List Json)
    (hne : lines ≠ [])
    (hshape : ∀ l ∈ lines, ∃ mid,
      l = '{' :: mid ++ ['}'] ∧ ∀ c ∈ mid, jsLineTerm c = false)
    (hparse : parseJsonCh ('[' :: joinCh ',' lines ++ [']'])
        = some (Json.arr items)) :
    listMetricsModel (.ok (String.mk (joinCh '\n' lines))) none {} = .ok items
  ∧ listMetricsModel (.ok "\x7b\"name\":\"a\"\x7d\n\x7b\"name\":\"b\"\x7d") none {}
      = .ok [Json.obj [("name", Json.str "a")],
             Json.obj [("name", Json.str "b")]] := by
  have hterm : ∀ l ∈ lines, ∀ c ∈ l, jsLineTerm c = false := by
    intro l hl c hc
    obtain ⟨mid, rfl, hmid⟩ := hshape l hl
    rcases List.mem_cons.mp hc with h1 | h2
    · subst h1
      decide
    · rcases List.mem_append.mp h2 with h3 | h4
      · exact hmid c h3
      · simp only [List.mem_singleton] at h4
        subst h4
        decide
  have hlast : ∀ l ∈ lines, l.getLast? = some '}' := by
    intro l hl
    obtain ⟨mid, rfl, -⟩ := hshape l hl
    exact List.getLast?_concat ('{' :: mid)
  have htrim : jsTrimEnd (joinCh '\n' lines) = joinCh '\n' lines := by
    apply jsTrimEnd_eq_self
    intro c hc
    rw [joinCh_getLast lines '}' hne hlast] at hc
    injection hc with hc2
    subst hc2
    decide
  have hspans : extractSpans (joinCh '\n' lines) = some lines := by
    unfold extractSpans
    rw [splitLines_joinCh lines hne hterm, filterMap_lineMatch lines hshape]
    simp [hne]
  constructor
  · simp only [listMetricsModel, data_mk, htrim, hspans, hparse]
  · rfl

/-- Witness for `listMetrics_concatenated_objects`, at the two-line
example of the claim. -/
theorem listMetrics_concatenated_objects_witness :
    parseJsonCh ('[' :: joinCh ','
        ["\x7b\"name\":\"a\"\x7d".data, "\x7b\"name\":\"b\"\x7d".data] ++ [']'])
      = some (Json.arr [Json.obj [("name", Json.str "a")],
          Json.obj [("name", Json.str "b")]])
  ∧ (listMetricsModel (.ok (String.mk (joinCh '\n'
        ["\x7b\"name\":\"a\"\x7d".data, "\x7b\"name\":\"b\"\x7d".data]))) none {}
      = .ok [Json.obj [("name", Json.str "a")],
             Json.obj [("name", Json.str "b")]]
  ∧ listMetricsModel (.ok "\x7b\"name\":\"a\"\x7d\n\x7b\"name\":\"b\"\x7d") none {}
      = .ok [Json.obj [("name", Json.str "a")],
             Json.obj [("name", Json.str "b")]]) :=
  ⟨by rfl,
   listMetrics_concatenated_objects
     ["\x7b\"name\":\"a\"\x7d".data, "\x7b\"name\":\"b\"\x7d".data] _
     (by decide)
     (by
       intro l hl
       simp only [List.mem_cons, List.not_mem_nil, or_false] at hl
       rcases hl with rfl | rfl
       · exact ⟨"\"name\":\"a\"".data, by decide, by decide⟩
       · exact ⟨"\"name\":\"b\"".data, by decide, by decide⟩)
     (by rfl)⟩
